import Mathlib

/-!
Shallow embedding of the PoS consensus bridge (`core/src/consensus/pos_handler.rs`)
and the block-retrieval request protocol
(`core/src/pos/protocol/message/block_retrieval.rs`) of the conflux-rust node,
together with proofs of the specified properties.

Machine integers (`u64`) are modelled as `Nat`: none of the embedded code paths
perform arithmetic that can overflow (the only arithmetic is comparison and the
epoch range `parent.epoch..me.epoch`), so no modular reduction is needed.
Hashes (`H256`, `HashValue`) are modelled as `Nat` identifiers: the code only
ever compares them for equality.
-/

namespace ConfluxPos

/-- Hash type `H256`; the bridge only compares hashes for equality, so a `Nat`
identifier is a faithful model. -/
abbrev H256 := Nat

/-- Identifier of a PoS block (`primitives::pos::PosBlockId`, an `H256`). -/
abbrev PosBlockId := H256

/-- Validator identity as used in the bridge query results (an `H256`). -/
abbrev NodeId := H256

/-- Request correlation id (`message::RequestId`, a `u64`). -/
abbrev RequestId := Nat

/-- Peer identifier as held in the handler context (`ctx.peer`). -/
abbrev PeerId := Nat

/-- Duration, in an abstract unit (`std::time::Duration`). -/
abbrev Duration := Nat

/-- Account address used to key the retrieval channel
(`diem_types::account_address::AccountAddress`, built from the peer hash). -/
abbrev AccountAddress := H256

/-- Event type tag (`EventKey` of `diem_types`); the bridge only compares keys
for equality. -/
abbrev EventKey := Nat

/-- Committed PoS block as seen by the bridge (struct `PosBlock` of
`pos_handler.rs`). -/
structure PosBlock where
  hash : PosBlockId
  epoch : Nat
  round : Nat
  pivot_decision : H256
  version : Nat
  deriving Repr, DecidableEq

/-- Modelled from the spec: the payload of a `ContractEvent` is opaque bytes
decoded by `UnlockEvent::from_bytes` / `DisputeEvent::from_bytes`
(`diem_types`, not under `src/`). We model the payload symbolically as the
value it decodes to (or an undecodable blob), and the decoders as matches on
this symbolic payload. -/
inductive EventPayload where
  | unlock (node_id : NodeId) (unlocked : Nat)
  | dispute (node_id : NodeId)
  | other (blob : Nat)
  deriving Repr, DecidableEq

/-- Tagged event emitted by a committed block
(`diem_types::contract_event::ContractEvent`): an event key (type tag) and an
opaque payload. -/
structure ContractEvent where
  key : EventKey
  event_data : EventPayload
  deriving Repr, DecidableEq

/-- Decoded unlock event (`diem_types::term_state::UnlockEvent`). -/
structure UnlockEvent where
  node_id : NodeId
  unlocked : Nat
  deriving Repr, DecidableEq

/-- Decoded dispute event (`diem_types::term_state::DisputeEvent`). -/
structure DisputeEvent where
  node_id : NodeId
  deriving Repr, DecidableEq

/-- Modelled from the spec: one type tag per event kind
(`UnlockEvent::event_key()`, `diem_types`, not under `src/`). Only its
distinctness from the other tags matters. -/
def UnlockEvent.event_key : EventKey := 0

/-- Modelled from the spec: one type tag per event kind
(`DisputeEvent::event_key()`, `diem_types`, not under `src/`). -/
def DisputeEvent.event_key : EventKey := 1

/-- Modelled from the spec: `UnlockEvent::from_bytes` decodes an opaque
payload into node id and unlocked vote count, failing on a malformed
payload. -/
def UnlockEvent.from_bytes : EventPayload → Option UnlockEvent
  | EventPayload.unlock n u => some { node_id := n, unlocked := u }
  | _ => none

/-- Modelled from the spec: `DisputeEvent::from_bytes` decodes an opaque
payload into a node id, failing on a malformed payload. -/
def DisputeEvent.from_bytes : EventPayload → Option DisputeEvent
  | EventPayload.dispute n => some { node_id := n }
  | _ => none

/-- Modelled from the spec: per-epoch reward payout record
(`diem_types::reward_distribution_event::RewardDistributionEvent`, not under
`src/`); its contents are opaque to the bridge. -/
structure RewardDistributionEvent where
  epoch : Nat
  deriving Repr, DecidableEq

/-- Trait `PosInterface` of `pos_handler.rs`: the capability interface over
the committed PoS ledger that every bridge query goes through
(`self.pos()`). Fields are the trait methods the embedded queries use. -/
structure PosInterface where
  get_committed_block : PosBlockId → Option PosBlock
  latest_block : PosBlockId
  get_events : PosBlockId → PosBlockId → List ContractEvent
  get_reward_event : Nat → Option RewardDistributionEvent

/-- Strict `<` on Rust `(u64, u64)` tuples: lexicographic order. Used by
`verify_against_predecessors` in `me_round < p_round`. -/
def tupleLt (a b : Nat × Nat) : Bool :=
  decide (a.1 < b.1) || (decide (a.1 = b.1) && decide (a.2 < b.2))

/-- Function `verify_against_predecessors` of `PosHandler`: look up the
candidate's `(epoch, round)`; return `false` if absent; for each predecessor
look up its `(epoch, round)`, returning `false` if absent or if the
candidate's pair is lexicographically smaller; else `true`. The `preds.all`
computes the same result as the source's early-returning loop. -/
def verify_against_predecessors (pos : PosInterface) (me : PosBlockId)
    (preds : List PosBlockId) : Bool :=
  match pos.get_committed_block me with
  | none => false
  | some b =>
    let me_round := (b.epoch, b.round)
    preds.all fun p =>
      match pos.get_committed_block p with
      | none => false
      | some pb => ! tupleLt me_round (pb.epoch, pb.round)

/-- Function `is_committed` of `PosHandler`. -/
def is_committed (pos : PosInterface) (h : PosBlockId) : Bool :=
  (pos.get_committed_block h).isSome

/-- Function `get_pivot_decision` of `PosHandler`:
`self.pos().get_committed_block(h).map(|b| b.pivot_decision)`. -/
def get_pivot_decision (pos : PosInterface) (h : PosBlockId) : Option H256 :=
  (pos.get_committed_block h).map PosBlock.pivot_decision

/-- Function `get_latest_pos_reference` of `PosHandler`. -/
def get_latest_pos_reference (pos : PosInterface) : PosBlockId :=
  pos.latest_block

/-- Loop body of `get_unlock_nodes`: iterate over the events, pushing the
decoded `(node_id, unlocked)` of every event whose key equals the unlock tag.
`none` models the `expect("key checked")` abort on a matching-tagged event
whose payload fails to decode. -/
def unlockLoop : List ContractEvent → List (NodeId × Nat) →
    Option (List (NodeId × Nat))
  | [], unlock_nodes => some unlock_nodes
  | event :: rest, unlock_nodes =>
    if event.key = UnlockEvent.event_key then
      match UnlockEvent.from_bytes event.event_data with
      | some unlock_event =>
        unlockLoop rest
          (unlock_nodes ++ [(unlock_event.node_id, unlock_event.unlocked)])
      | none => none
    else unlockLoop rest unlock_nodes

/-- Function `get_unlock_nodes` of `PosHandler`. The result is `some` of the
collected list, or `none` for the fatal decode abort. -/
def get_unlock_nodes (pos : PosInterface) (h parent_pos_ref : PosBlockId) :
    Option (List (NodeId × Nat)) :=
  unlockLoop (pos.get_events parent_pos_ref h) []

/-- Loop body of `get_disputed_nodes`, analogous to `unlockLoop`. -/
def disputeLoop : List ContractEvent → List NodeId → Option (List NodeId)
  | [], disputed_nodes => some disputed_nodes
  | event :: rest, disputed_nodes =>
    if event.key = DisputeEvent.event_key then
      match DisputeEvent.from_bytes event.event_data with
      | some dispute_event =>
        disputeLoop rest (disputed_nodes ++ [dispute_event.node_id])
      | none => none
    else disputeLoop rest disputed_nodes

/-- Function `get_disputed_nodes` of `PosHandler`. -/
def get_disputed_nodes (pos : PosInterface) (h parent_pos_ref : PosBlockId) :
    Option (List NodeId) :=
  disputeLoop (pos.get_events parent_pos_ref h) []

/-- Statement of the spec's filter semantics for `get_unlock_nodes`, used to
compare the loop against the specified behaviour: keep exactly the events
whose key is the unlock tag, decoded, in order. -/
def unlockView (e : ContractEvent) : Option (NodeId × Nat) :=
  if e.key = UnlockEvent.event_key then
    (UnlockEvent.from_bytes e.event_data).map fun u => (u.node_id, u.unlocked)
  else none

/-- Statement of the spec's filter semantics for `get_disputed_nodes`. -/
def disputeView (e : ContractEvent) : Option NodeId :=
  if e.key = DisputeEvent.event_key then
    (DisputeEvent.from_bytes e.event_data).map DisputeEvent.node_id
  else none

/-- Loop body of `get_reward_distribution_event`:
`for epoch in parent.epoch..me.epoch { events.push(get_reward_event(epoch)?) }`.
The first missing reward event aborts the whole call with `none`. -/
def rewardLoop (pos : PosInterface) : List Nat →
    List RewardDistributionEvent → Option (List RewardDistributionEvent)
  | [], events => some events
  | epoch :: rest, events =>
    match pos.get_reward_event epoch with
    | none => none
    | some ev => rewardLoop pos rest (events ++ [ev])

/-- Auxiliary pure collector equivalent to `rewardLoop` with empty
accumulator; convenient induction target. -/
def collectRewards (pos : PosInterface) : List Nat →
    Option (List RewardDistributionEvent)
  | [] => some []
  | epoch :: rest =>
    match pos.get_reward_event epoch, collectRewards pos rest with
    | some ev, some evs => some (ev :: evs)
    | _, _ => none

/-- Function `get_reward_distribution_event` of `PosHandler`: `none` when the
two ids are equal, when either block is not committed, or when the epochs are
equal; otherwise one reward event per epoch in `parent.epoch..me.epoch`, the
whole call returning `none` if any is missing. -/
def get_reward_distribution_event (pos : PosInterface)
    (h parent_pos_ref : PosBlockId) : Option (List RewardDistributionEvent) :=
  if h = parent_pos_ref then none
  else
    match pos.get_committed_block h with
    | none => none
    | some me_block =>
      match pos.get_committed_block parent_pos_ref with
      | none => none
      | some parent_block =>
        if me_block.epoch = parent_block.epoch then none
        else
          rewardLoop pos
            (List.range' parent_block.epoch (me_block.epoch - parent_block.epoch))
            []

/-- Modelled from the spec: handle on the started PoS runtime
(`DiemHandle`, produced by `start_pos_consensus`, not under `src/`); opaque to
the bridge beyond being kept alive in a set-once cell. -/
structure DiemHandle where
  id : Nat
  deriving Repr, DecidableEq

/-- Modelled from the spec: shared protocol configuration
(`sync::ProtocolConfiguration`, not under `src/`); opaque to the embedded
code, which never reads it. -/
structure ProtocolConfiguration where
  blob : Nat
  deriving Repr, DecidableEq

/-- Modelled from the spec: one entry of the initial-validator-set file
(validator identities and starting voting power). -/
structure GenesisPosNodeInfo where
  bls_key : Nat
  vrf_key : Nat
  voting_power : Nat
  deriving Repr, DecidableEq

/-- Modelled from the spec: parsed contents of the initial-validator-set file
(`spec::genesis::GenesisPosState`, not under `src/`). -/
structure GenesisPosState where
  initial_nodes : List GenesisPosNodeInfo
  deriving Repr, DecidableEq

/-- Struct `PosConfiguration` of `pos_handler.rs` (keys and the Diem node
config modelled opaquely). -/
structure PosConfiguration where
  bls_key : Nat
  vrf_key : Nat
  protocol_conf : ProtocolConfiguration
  pos_initial_nodes_path : String

/-- Struct `PosHandler` of `pos_handler.rs`: the two `OnceCell`s are modelled
as `Option`s, `none` standing for an empty cell. -/
structure PosHandler where
  pos : Option PosInterface
  diem_handler : Option DiemHandle
  enable_height : Nat
  conf : PosConfiguration

/-- Constructor `PosHandler::new`. -/
def PosHandler.new (conf : PosConfiguration) (enable_height : Nat) :
    PosHandler :=
  { pos := none, diem_handler := none, enable_height := enable_height,
    conf := conf }

/-- Semantics of `OnceCell::set`: succeeds (returning the filled cell) iff the
cell was empty; a failed set leaves the cell unchanged. -/
def cellSet {α : Type} (c : Option α) (v : α) : Bool × Option α :=
  match c with
  | some x => (false, some x)
  | none => (true, some v)

/-- Results of the external side effects performed by a call to
`PosHandler::initialize`, passed in as data: the outcome of
`read_initial_nodes_from_file` (filesystem), the `DiemHandle` returned by
`start_pos_consensus`, and the `PosConnection` ledger view built over its
databases (all external to the embedded control flow). -/
structure InitEffects where
  read_nodes : Except String GenesisPosState
  diem_handler : DiemHandle
  pos_connection : PosInterface

/-- Function `initialize` of `PosHandler`: bail out if the `pos` cell is
already filled; propagate a failure of `read_initial_nodes_from_file`;
otherwise fill both cells (bailing out if either `set` fails, which cannot
happen after the first guard in sequential execution). Returns the result
paired with the updated handler state. -/
def PosHandler.initialize (self : PosHandler) (eff : InitEffects) :
    Except String Unit × PosHandler :=
  if self.pos.isSome then
    (Except.error "Initializing already-initialized PosHandler!", self)
  else
    match eff.read_nodes with
    | Except.error e => (Except.error e, self)
    | Except.ok _initial_nodes =>
      match cellSet self.pos eff.pos_connection with
      | (false, pos1) =>
        (Except.error "PoS initialized twice!", { self with pos := pos1 })
      | (true, pos1) =>
        match cellSet self.diem_handler eff.diem_handler with
        | (false, dh1) =>
          (Except.error "PoS initialized twice!",
            { self with pos := pos1, diem_handler := dh1 })
        | (true, dh1) =>
          (Except.ok (), { self with pos := pos1, diem_handler := dh1 })

/-- Function `is_enabled_at_height` of `PosHandler`:
`height >= self.enable_height`. -/
def PosHandler.is_enabled_at_height (self : PosHandler) (height : Nat) :
    Bool :=
  decide (height ≥ self.enable_height)

/-- Error type of the sync protocol (`sync::Error`), modelled by its kinds
relevant to the correlation protocol. -/
inductive Error where
  | request_timeout
  | peer_error (code : Nat)
  deriving Repr, DecidableEq

/-- Completion sink for one request
(`oneshot::Sender<Result<Box<dyn RpcResponse>, Error>>`), modelled as an
identifier; delivery through it is recorded explicitly by `notify_error`. -/
structure ResponseSink where
  id : Nat
  deriving Repr, DecidableEq

/-- Retrieval parameters
(`consensus_types::block_retrieval::BlockRetrievalRequest`, not under `src/`):
target block and range, per the spec. -/
structure BlockRetrievalRequest where
  block_id : H256
  num_blocks : Nat
  deriving Repr, DecidableEq

/-- Struct `BlockRetrievalRpcRequest` of `block_retrieval.rs`. -/
structure BlockRetrievalRpcRequest where
  request_id : RequestId
  request : BlockRetrievalRequest
  is_empty : Bool
  response_tx : Option ResponseSink
  timeout : Duration
  deriving Repr, DecidableEq

/-- Method `timeout` of the `Request` impl for `BlockRetrievalRpcRequest`:
returns the stored `self.timeout`, ignoring the configuration argument. -/
def Request.timeout (self : BlockRetrievalRpcRequest)
    (_conf : ProtocolConfiguration) : Duration :=
  self.timeout

/-- Method `notify_error` of the `Request` impl: take the sink out of the
holder (`self.response_tx.take()`); if one was present, send the error into
it. Returns the updated request together with the list of deliveries made
(empty when the holder was already empty). -/
def notify_error (self : BlockRetrievalRpcRequest) (error : Error) :
    BlockRetrievalRpcRequest × List (ResponseSink × Error) :=
  match self.response_tx with
  | some tx => ({ self with response_tx := none }, [(tx, error)])
  | none => ({ self with response_tx := none }, [])

/-- Method `set_response_notification` of the `Request` impl. -/
def set_response_notification (self : BlockRetrievalRpcRequest)
    (res_tx : ResponseSink) : BlockRetrievalRpcRequest :=
  { self with response_tx := some res_tx }

/-- Work item handed to the retrieval worker
(`IncomingBlockRetrievalRequest` of the consensus network layer). -/
structure IncomingBlockRetrievalRequest where
  req : BlockRetrievalRequest
  peer_id : PeerId
  request_id : RequestId
  deriving Repr, DecidableEq

/-- State of the retrieval-worker channel
(`network_task.block_retrieval_tx`): the sequence of pushed items, each keyed
by the peer address it was pushed under. -/
abbrev RetrievalChannel := List (AccountAddress × IncomingBlockRetrievalRequest)

/-- Handler context (`sync_protocol::Context`) as visible to `handle`: the
requesting peer, its hash, the retrieval channel reached through
`ctx.manager.network_task`, and the serving node's ledger view (reachable
from the manager; included so that independence from it can be stated). -/
structure Context where
  peer : PeerId
  peer_hash : H256
  block_retrieval_tx : RetrievalChannel
  ledger : PosInterface

/-- Modelled from the spec: `push` on the retrieval-worker channel (an
unbounded per-peer queue, not under `src/`) appends the item and succeeds. -/
def channelPush (chan : RetrievalChannel) (addr : AccountAddress)
    (item : IncomingBlockRetrievalRequest) : Except Error RetrievalChannel :=
  Except.ok (chan ++ [(addr, item)])

/-- Method `handle` of the `Handleable` impl for `BlockRetrievalRpcRequest`:
build the peer address from the peer hash, package the retrieval parameters
with the peer id and correlation id into a work item, push it onto the
retrieval channel (propagating a push error), and return. The resulting
channel state is returned in place of the source's in-place mutation. -/
def handle (self : BlockRetrievalRpcRequest) (ctx : Context) :
    Except Error RetrievalChannel :=
  let peer_address : AccountAddress := ctx.peer_hash
  let req := self.request
  let req_with_callback : IncomingBlockRetrievalRequest :=
    { req := req, peer_id := ctx.peer, request_id := self.request_id }
  match channelPush ctx.block_retrieval_tx peer_address req_with_callback with
  | Except.error e => Except.error e
  | Except.ok chan => Except.ok chan

/-- Fixture events used by concrete witnesses: one unlock-tagged event, one
dispute-tagged event, one event of an unrelated tag. -/
def fixtureEvents : List ContractEvent :=
  [ { key := 0, event_data := EventPayload.unlock 7 3 },
    { key := 1, event_data := EventPayload.dispute 8 },
    { key := 5, event_data := EventPayload.other 9 } ]

/-- Fixture ledger used by concrete witnesses and counterexamples: block `1`
at `(epoch 2, round 0)`, block `2` at `(epoch 1, round 5)`, block `3` at
`(epoch 2, round 1)`; reward events exist for epochs `0`, `1` and `2`. -/
def cexLedger : PosInterface :=
  { get_committed_block := fun h =>
      if h = 1 then
        some { hash := 1, epoch := 2, round := 0, pivot_decision := 10,
               version := 2 }
      else if h = 2 then
        some { hash := 2, epoch := 1, round := 5, pivot_decision := 11,
               version := 1 }
      else if h = 3 then
        some { hash := 3, epoch := 2, round := 1, pivot_decision := 12,
               version := 3 }
      else none,
    latest_block := 3,
    get_events := fun _ _ => fixtureEvents,
    get_reward_event := fun e =>
      if e < 3 then some { epoch := e } else none }

/-- Fixture configuration for the lifecycle witnesses. -/
def fixtureConf : PosConfiguration :=
  { bls_key := 1, vrf_key := 2, protocol_conf := { blob := 0 },
    pos_initial_nodes_path := "pos_initial_nodes.json" }

/-- Fixture handler before initialization. -/
def handler0 : PosHandler := PosHandler.new fixtureConf 10

/-- Fixture initialization effects. -/
def eff0 : InitEffects :=
  { read_nodes :=
      Except.ok
        { initial_nodes :=
            [{ bls_key := 1, vrf_key := 2, voting_power := 3 }] },
    diem_handler := { id := 0 },
    pos_connection := cexLedger }

/-- Fixture handler after a successful first initialization. -/
def handler1 : PosHandler :=
  { handler0 with pos := some cexLedger, diem_handler := some { id := 0 } }

/-! Helper lemmas shared by the claim theorems. -/

theorem tupleLt_false_iff (r s : Nat × Nat) :
    tupleLt r s = false ↔ s.1 < r.1 ∨ (s.1 = r.1 ∧ s.2 ≤ r.2) := by
  simp only [tupleLt, Bool.or_eq_false_iff, Bool.and_eq_false_iff,
    decide_eq_false_iff_not]
  omega

theorem range'_get?_eq :
    ∀ (n s i : Nat), i < n → (List.range' s n).get? i = some (s + i) := by
  intro n
  induction n with
  | zero => intro s i hi; omega
  | succ m ih =>
    intro s i hi
    cases i with
    | zero => simp [List.range']
    | succ j =>
      have hj : j < m := by omega
      have := ih (s + 1) j hj
      simp only [List.range', List.get?_cons_succ, this]
      congr 1
      omega

theorem unlockLoop_spec (events : List ContractEvent) :
    ∀ acc : List (NodeId × Nat),
    (∀ e ∈ events, e.key = UnlockEvent.event_key →
      (UnlockEvent.from_bytes e.event_data).isSome) →
    unlockLoop events acc = some (acc ++ events.filterMap unlockView) := by
  induction events with
  | nil => intro acc _; simp [unlockLoop]
  | cons e rest ih =>
    intro acc hu
    by_cases hk : e.key = UnlockEvent.event_key
    · have hd := hu e (by simp) hk
      rcases hfb : UnlockEvent.from_bytes e.event_data with _ | u
      · rw [hfb] at hd; simp at hd
      · have ihr := ih (acc ++ [(u.node_id, u.unlocked)])
          (fun x hx hkx => hu x (by simp [hx]) hkx)
        simp [unlockLoop, hk, hfb, unlockView, List.filterMap_cons, ihr]
    · have ihr := ih acc (fun x hx hkx => hu x (by simp [hx]) hkx)
      simp [unlockLoop, hk, unlockView, List.filterMap_cons, ihr]

theorem disputeLoop_spec (events : List ContractEvent) :
    ∀ acc : List NodeId,
    (∀ e ∈ events, e.key = DisputeEvent.event_key →
      (DisputeEvent.from_bytes e.event_data).isSome) →
    disputeLoop events acc = some (acc ++ events.filterMap disputeView) := by
  induction events with
  | nil => intro acc _; simp [disputeLoop]
  | cons e rest ih =>
    intro acc hd
    by_cases hk : e.key = DisputeEvent.event_key
    · have hdec := hd e (by simp) hk
      rcases hfb : DisputeEvent.from_bytes e.event_data with _ | u
      · rw [hfb] at hdec; simp at hdec
      · have ihr := ih (acc ++ [u.node_id])
          (fun x hx hkx => hd x (by simp [hx]) hkx)
        simp [disputeLoop, hk, hfb, disputeView, List.filterMap_cons, ihr]
    · have ihr := ih acc (fun x hx hkx => hd x (by simp [hx]) hkx)
      simp [disputeLoop, hk, disputeView, List.filterMap_cons, ihr]

theorem rewardLoop_eq (pos : PosInterface) (epochs : List Nat) :
    ∀ acc, rewardLoop pos epochs acc =
      (collectRewards pos epochs).map fun t => acc ++ t := by
  induction epochs with
  | nil => intro acc; simp [rewardLoop, collectRewards]
  | cons e rest ih =>
    intro acc
    rcases hre : pos.get_reward_event e with _ | ev
    · simp [rewardLoop, collectRewards, hre]
    · rcases hcr : collectRewards pos rest with _ | evs
      · simp [rewardLoop, collectRewards, hre, hcr, ih]
      · simp [rewardLoop, collectRewards, hre, hcr, ih]

theorem collectRewards_none_iff (pos : PosInterface) (epochs : List Nat) :
    collectRewards pos epochs = none ↔
      ∃ e ∈ epochs, pos.get_reward_event e = none := by
  induction epochs with
  | nil => simp [collectRewards]
  | cons e rest ih =>
    rcases hre : pos.get_reward_event e with _ | ev
    · simp [collectRewards, hre]
    · rcases hcr : collectRewards pos rest with _ | evs
      · constructor
        · intro _
          rcases ih.mp hcr with ⟨x, hx, hn⟩
          exact ⟨x, by simp [hx], hn⟩
        · intro _
          simp [collectRewards, hre, hcr]
      · constructor
        · intro hfalse
          simp [collectRewards, hre, hcr] at hfalse
        · rintro ⟨x, hx, hn⟩
          rcases List.mem_cons.mp hx with rfl | hxr
          · rw [hre] at hn; cases hn
          · exact absurd (ih.mpr ⟨x, hxr, hn⟩) (by simp [hcr])

theorem collectRewards_get? (pos : PosInterface) :
    ∀ (epochs : List Nat) (l : List RewardDistributionEvent),
    collectRewards pos epochs = some l →
    l.length = epochs.length ∧
    ∀ i, i < epochs.length →
      ∃ e, epochs.get? i = some e ∧ l.get? i = pos.get_reward_event e := by
  intro epochs
  induction epochs with
  | nil =>
    intro l hl
    simp [collectRewards] at hl
    simp [← hl]
  | cons e rest ih =>
    intro l hl
    simp only [collectRewards] at hl
    rcases hre : pos.get_reward_event e with _ | ev <;> rw [hre] at hl
    · simp at hl
    · rcases hcr : collectRewards pos rest with _ | evs <;> rw [hcr] at hl
      · simp at hl
      · simp only [Option.some.injEq] at hl
        rcases ih evs hcr with ⟨hlen, hget⟩
        subst hl
        refine ⟨by simp [hlen], ?_⟩
        intro i hi
        cases i with
        | zero => exact ⟨e, by simp, by simp [hre]⟩
        | succ j =>
          rcases hget j (by simpa using hi) with ⟨x, hx1, hx2⟩
          exact ⟨x, by simpa using hx1, by simpa using hx2⟩

/-! Claim theorems. -/

/-- C10: for every block-retrieval request, `timeout` returns the duration
stored in the request at construction time and is independent of the
protocol-configuration argument. -/
theorem retrieval_timeout_config_independent (req : BlockRetrievalRpcRequest)
    (c1 c2 : ProtocolConfiguration) :
    Request.timeout req c1 = Request.timeout req c2 ∧
    Request.timeout req c1 = req.timeout :=
  ⟨rfl, rfl⟩

/-- C3: after any first call to `notify_error`, the sink holder is empty, and
a second call delivers nothing and leaves the request state unchanged — the
second resolution attempt is a safe no-op. -/
theorem retrieval_notify_error_idempotent (req : BlockRetrievalRpcRequest)
    (e1 e2 : Error) :
    (notify_error req e1).1.response_tx = none ∧
    notify_error (notify_error req e1).1 e2 = ((notify_error req e1).1, []) := by
  rcases hr : req.response_tx with _ | tx <;> simp [notify_error, hr]

/-- C7: handling an inbound block-retrieval request only packages the
retrieval parameters with the requesting peer's identity and correlation id
into a work item, appends it to the retrieval channel keyed by the peer's
address, and returns `Ok`; the result does not depend on the serving node's
ledger. -/
theorem retrieval_handle_enqueues (req : BlockRetrievalRpcRequest)
    (ctx : Context) (L : PosInterface) :
    handle req ctx = Except.ok (ctx.block_retrieval_tx ++
      [(ctx.peer_hash,
        { req := req.request, peer_id := ctx.peer,
          request_id := req.request_id })]) ∧
    handle req { ctx with ledger := L } = handle req ctx :=
  ⟨rfl, rfl⟩

/-- C8: `get_pivot_decision` returns the pivot decision of the committed
block when one exists and `none` when no committed block exists for the id. -/
theorem pos_pivot_decision_spec (pos : PosInterface) (h : PosBlockId) :
    (∀ b, pos.get_committed_block h = some b →
      get_pivot_decision pos h = some b.pivot_decision) ∧
    (pos.get_committed_block h = none → get_pivot_decision pos h = none) := by
  constructor
  · intro b hb; simp [get_pivot_decision, hb]
  · intro hb; simp [get_pivot_decision, hb]

/-- Witness for C8 at the fixture ledger: block `1` is committed with pivot
decision `10`. -/
theorem pos_pivot_decision_witness :
    get_pivot_decision cexLedger 1 = some 10 :=
  (pos_pivot_decision_spec cexLedger 1).1
    { hash := 1, epoch := 2, round := 0, pivot_decision := 10, version := 2 }
    (by decide)

/-- C9: `is_enabled_at_height` is true exactly when the height reaches the
configured activation height, and it reads nothing but the configured
activation height — in particular no ledger state. -/
theorem pos_enabled_at_height_spec (ph : PosHandler) (height : Nat) :
    (ph.is_enabled_at_height height = true ↔ height ≥ ph.enable_height) ∧
    ∀ pos' dh',
      PosHandler.is_enabled_at_height
        { ph with pos := pos', diem_handler := dh' } height =
      ph.is_enabled_at_height height := by
  constructor
  · simp [PosHandler.is_enabled_at_height]
  · intro pos' dh'; rfl

/-- Witness for C9: activation height `10`, queried height `10`. -/
theorem pos_enabled_at_height_witness :
    PosHandler.is_enabled_at_height handler0 10 = true :=
  (pos_enabled_at_height_spec handler0 10).1.mpr (by decide)

/-- C1 counterexample: in the fixture ledger the candidate (block `1`, epoch
`2`, round `0`) and its predecessor (block `2`, epoch `1`, round `5`) are both
committed, the predecessor's round `5` is strictly greater than the
candidate's round `0`, yet `verify_against_predecessors` returns `true` — the
code compares `(epoch, round)` pairs lexicographically, not rounds alone. -/
theorem pos_verify_round_only_counterexample :
    verify_against_predecessors cexLedger 1 [2] = true ∧
    (cexLedger.get_committed_block 1).map PosBlock.round = some 0 ∧
    (cexLedger.get_committed_block 2).map PosBlock.round = some 5 ∧
    ¬ (5 : Nat) ≤ 0 := by
  decide

/-- C1 amended: `verify_against_predecessors` returns `true` iff the
candidate is committed, every predecessor is committed, and every
predecessor's `(epoch, round)` pair is lexicographically less than or equal
to the candidate's `(epoch, round)` pair; it returns `false` (never erring)
otherwise. -/
theorem pos_verify_lex_spec (pos : PosInterface) (me : PosBlockId)
    (preds : List PosBlockId) :
    verify_against_predecessors pos me preds = true ↔
      ∃ mb, pos.get_committed_block me = some mb ∧
        ∀ p ∈ preds, ∃ pb, pos.get_committed_block p = some pb ∧
          (pb.epoch < mb.epoch ∨ (pb.epoch = mb.epoch ∧ pb.round ≤ mb.round)) := by
  unfold verify_against_predecessors
  rcases hme : pos.get_committed_block me with _ | b
  · simp
  · simp only [Option.some.injEq, List.all_eq_true]
    constructor
    · intro H
      refine ⟨b, rfl, ?_⟩
      intro p hp
      have hf := H p hp
      rcases hpb : pos.get_committed_block p with _ | pb <;> rw [hpb] at hf
      · simp at hf
      · simp only [Bool.not_eq_true'] at hf
        exact ⟨pb, rfl,
          (tupleLt_false_iff (b.epoch, b.round) (pb.epoch, pb.round)).mp hf⟩
    · rintro ⟨mb, hmb, H⟩
      intro p hp
      rcases H p hp with ⟨pb, hpb, hlex⟩
      rw [hpb]
      simp only [Bool.not_eq_true']
      apply (tupleLt_false_iff (b.epoch, b.round) (pb.epoch, pb.round)).mpr
      rw [hmb]
      exact hlex

/-- Witness for the amended C1 at the fixture ledger: candidate `1` at epoch
`2` round `0` with predecessor `2` at the lexicographically smaller
`(1, 5)`. -/
theorem pos_verify_lex_witness :
    verify_against_predecessors cexLedger 1 [2] = true := by
  apply (pos_verify_lex_spec cexLedger 1 [2]).mpr
  refine ⟨{ hash := 1, epoch := 2, round := 0, pivot_decision := 10,
            version := 2 }, by decide, ?_⟩
  intro p hp
  have hp2 : p = 2 := by simpa using hp
  subst hp2
  exact ⟨{ hash := 2, epoch := 1, round := 5, pivot_decision := 11,
           version := 1 }, by decide, Or.inl (by decide)⟩

/-- C6: `get_reward_distribution_event` on the same block id always returns
`none`, and whenever the two blocks are committed with equal epochs the call
returns `none`. -/
theorem pos_reward_same_epoch_none (pos : PosInterface) (h p : PosBlockId)
    (mb pb : PosBlock) :
    get_reward_distribution_event pos h h = none ∧
    (pos.get_committed_block h = some mb →
      pos.get_committed_block p = some pb →
      mb.epoch = pb.epoch → get_reward_distribution_event pos h p = none) := by
  constructor
  · simp [get_reward_distribution_event]
  · intro hm hp2 heq
    by_cases hhp : h = p
    · simp [get_reward_distribution_event, hhp]
    · simp [get_reward_distribution_event, hhp, hm, hp2, heq]

/-- Witness for C6 at the fixture ledger: blocks `1` and `3` are distinct,
committed, and share epoch `2`. -/
theorem pos_reward_same_epoch_witness :
    get_reward_distribution_event cexLedger 1 3 = none :=
  (pos_reward_same_epoch_none cexLedger 1 3
      { hash := 1, epoch := 2, round := 0, pivot_decision := 10, version := 2 }
      { hash := 3, epoch := 2, round := 1, pivot_decision := 12, version := 3 }).2
    (by decide) (by decide) rfl

/-- C2: for committed blocks with distinct ids and differing epochs,
`get_reward_distribution_event` returns `none` exactly when some epoch in
`[parent.epoch, me.epoch)` has no reward event, and any returned list holds
exactly one reward event per epoch of that range, in increasing epoch
order. -/
theorem pos_reward_distribution_spec (pos : PosInterface) (h p : PosBlockId)
    (mb pb : PosBlock) (hne : h ≠ p)
    (hm : pos.get_committed_block h = some mb)
    (hp : pos.get_committed_block p = some pb)
    (hep : mb.epoch ≠ pb.epoch) :
    (get_reward_distribution_event pos h p = none ↔
      ∃ e, pb.epoch ≤ e ∧ e < mb.epoch ∧ pos.get_reward_event e = none) ∧
    ∀ l, get_reward_distribution_event pos h p = some l →
      l.length = mb.epoch - pb.epoch ∧
      ∀ i, i < l.length → l.get? i = pos.get_reward_event (pb.epoch + i) := by
  have hunf : get_reward_distribution_event pos h p =
      collectRewards pos (List.range' pb.epoch (mb.epoch - pb.epoch)) := by
    simp only [get_reward_distribution_event, hne, hm, hp, hep, if_false,
      ite_false, rewardLoop_eq]
    cases collectRewards pos (List.range' pb.epoch (mb.epoch - pb.epoch)) <;>
      simp
  constructor
  · rw [hunf, collectRewards_none_iff]
    constructor
    · rintro ⟨e, he, hn⟩
      rw [List.mem_range'_1] at he
      exact ⟨e, he.1, by omega, hn⟩
    · rintro ⟨e, he1, he2, hn⟩
      exact ⟨e, List.mem_range'_1.mpr ⟨he1, by omega⟩, hn⟩
  · intro l hl
    rw [hunf] at hl
    rcases collectRewards_get? pos _ l hl with ⟨hlen, hget⟩
    have hlr : l.length = mb.epoch - pb.epoch := by simpa using hlen
    refine ⟨hlr, ?_⟩
    intro i hi
    rw [hlen] at hi
    rcases hget i hi with ⟨e, he1, he2⟩
    have hrange := range'_get?_eq (mb.epoch - pb.epoch) pb.epoch i
      (by simpa using hi)
    rw [hrange] at he1
    have he : pb.epoch + i = e := by
      exact Option.some.inj he1
    rw [← he] at he2
    exact he2

/-- Witness for C2 at the fixture ledger: blocks `1` (epoch `2`) and `2`
(epoch `1`) are distinct and committed, and the reward event for epoch `1`
exists, so the call yields a result. -/
theorem pos_reward_distribution_witness :
    (get_reward_distribution_event cexLedger 1 2).isSome = true := by
  rcases hres : get_reward_distribution_event cexLedger 1 2 with _ | l
  · rcases (pos_reward_distribution_spec cexLedger 1 2
        { hash := 1, epoch := 2, round := 0, pivot_decision := 10, version := 2 }
        { hash := 2, epoch := 1, round := 5, pivot_decision := 11, version := 1 }
        (by decide) (by decide) (by decide) (by decide)).1.mp hres with
      ⟨e, h1, h2, h3⟩
    have h1' : 1 ≤ e := h1
    have h2' : e < 2 := h2
    have he : e = 1 := by omega
    subst he
    exact absurd h3 (by decide)
  · rfl

/-- C5: `get_unlock_nodes` and `get_disputed_nodes` return exactly the
decoded events whose key equals the respective event-type tag, in commit
order; events with any other tag contribute nothing, and a range with no
matching event yields the empty list (the `filterMap` of the view over an
unmatched range is `[]`). The hypotheses state that tag-matched payloads
decode, which the code assumes fatally (`expect("key checked")`). -/
theorem pos_event_extraction_spec (pos : PosInterface) (h p : PosBlockId)
    (hu : ∀ e ∈ pos.get_events p h, e.key = UnlockEvent.event_key →
      (UnlockEvent.from_bytes e.event_data).isSome)
    (hd : ∀ e ∈ pos.get_events p h, e.key = DisputeEvent.event_key →
      (DisputeEvent.from_bytes e.event_data).isSome) :
    get_unlock_nodes pos h p =
      some ((pos.get_events p h).filterMap unlockView) ∧
    get_disputed_nodes pos h p =
      some ((pos.get_events p h).filterMap disputeView) := by
  constructor
  · have := unlockLoop_spec (pos.get_events p h) [] hu
    simpa [get_unlock_nodes] using this
  · have := disputeLoop_spec (pos.get_events p h) [] hd
    simpa [get_disputed_nodes] using this

/-- Witness for C5 at the fixture ledger: of the three fixture events only
the unlock-tagged one reaches the unlock result and only the dispute-tagged
one reaches the dispute result, in order. -/
theorem pos_event_extraction_witness :
    get_unlock_nodes cexLedger 1 2 = some [(7, 3)] ∧
    get_disputed_nodes cexLedger 1 2 = some [8] := by
  have hx := pos_event_extraction_spec cexLedger 1 2 (by decide) (by decide)
  exact ⟨hx.1.trans (by decide), hx.2.trans (by decide)⟩

/-- C4: if a call to `initialize` succeeds, then any second call on the
resulting state returns the already-initialized error and leaves the state
exactly as the first initialization established it. -/
theorem pos_initialize_once (s : PosHandler) (e1 e2 : InitEffects)
    (s' : PosHandler)
    (hfirst : PosHandler.initialize s e1 = (Except.ok (), s')) :
    PosHandler.initialize s' e2 =
      (Except.error "Initializing already-initialized PosHandler!", s') := by
  have hs' : s' = { s with pos := some e1.pos_connection, diem_handler := some e1.diem_handler } := by
    unfold PosHandler.initialize at hfirst
    rcases hpos : s.pos with _ | x
    · rcases hr : e1.read_nodes with e | g
      · simp [hpos, hr] at hfirst
      · rcases hdh : s.diem_handler with _ | y
        · simp only [hpos, hr, hdh, cellSet, Option.isSome_none, Bool.false_eq_true,
            if_false, ite_false, Prod.mk.injEq] at hfirst
          exact hfirst.2.symm
        · simp [hpos, hr, hdh, cellSet] at hfirst
    · simp [hpos] at hfirst
  rw [hs']
  simp [ PosHandler.initialize]

/-- Witness for C4: initializing the fixture handler twice with the same
effects — the first call succeeds producing `handler1`, the second errors and
returns `handler1` unchanged. -/
theorem pos_initialize_once_witness :
    PosHandler.initialize handler1 eff0 =
      (Except.error "Initializing already-initialized PosHandler!", handler1) :=
  pos_initialize_once handler0 eff0 eff0 handler1 rfl

end ConfluxPos
